import Mathlib

/-!
Verification of the two-party garbled-circuit core of mpc-hd.

The development shallowly embeds the Go sources:
 * ot/co.go (Chou-Orlandi OT, file src/unnamed/part_004),
 * the connection layer (src/p2p/protocol.go and the ot.Conn copy),
 * the garbler / evaluator drivers (src/circuit/garbler.go,
   src/unnamed/part_003) together with the driver entry points
   garbler_fn / evaluator_fn (src/unnamed/part_001, part_002).

The external library crypto/elliptic is modelled in two ways: for the
algebraic round-trip statements a P-256 point is an element of an
abstract additive commutative group (the documented semantics of
ScalarBaseMult / ScalarMult / Add), while for statements about raw,
possibly invalid coordinate pairs the curve operations are an opaque
record of functions on coordinate pairs.
-/

/-! ## Chou-Orlandi OT over an abstract group (ot/co.go) -/

/-- Sender transfer state, from co.go COSenderXfer.  The coordinate pairs
(Ax, Ay) and (AaInvx, AaInvy) are modelled as single abstract points; the
ciphertext fields e0, e1 are returned by ReceiveB instead of being stored.
Messages and masks are bit strings modelled as naturals under bitwise XOR
(the helper xor of co.go is not under src/; bitwise XOR follows the spec). -/
structure COSenderXfer (Point : Type) where
  m0 : ℕ
  m1 : ℕ
  a : ℕ
  A : Point
  AaInv : Point
deriving DecidableEq

/-- From co.go COSender.NewTransfer: draw a, set A = aG, Aa = aA and
AaInv = (Aax, P - Aay), the group negation of Aa.  The random scalar a is a
parameter; G is the curve base point. -/
def COSender.NewTransfer {Point : Type} [AddCommGroup Point]
    (G : Point) (m0 m1 : ℕ) (a : ℕ) : COSenderXfer Point :=
  let A := a • G
  let Aa := a • A
  { m0 := m0, m1 := m1, a := a, A := A, AaInv := -Aa }

/-- From co.go COSenderXfer.ReceiveB: bB = a.B, ba = bB + AaInv, masks are
deriveMask at counter 0, ciphertexts e0 = mask0 xor m0, e1 = mask1 xor m1.
The key-derivation function deriveMask is an uninterpreted function kdf of
the point and the counter. -/
def COSenderXfer.ReceiveB {Point : Type} [AddCommGroup Point]
    (kdf : Point → ℕ → ℕ) (s : COSenderXfer Point) (B : Point) : ℕ × ℕ :=
  let bB := s.a • B
  let ba := bB + s.AaInv
  let mask0 := kdf bB 0
  let mask1 := kdf ba 0
  (mask0 ^^^ s.m0, mask1 ^^^ s.m1)

/-- Receiver transfer state, from co.go COReceiverXfer.  The uint selection
bit (tested against 0 in the source) is a Bool; (Bx, By) and (Asx, Asy) are
single abstract points. -/
structure COReceiverXfer (Point : Type) where
  bit : Bool
  b : ℕ
  Bpt : Point
  As : Point
deriving DecidableEq

/-- From co.go COReceiverXfer.ReceiveA: B = bG, plus A when the selection
bit is set; As = bA.  The source method mutates the state; here it returns
the completed state built from the selection bit and scalar b.  No check of
any kind is made on the incoming point A. -/
def COReceiverXfer.ReceiveA {Point : Type} [AddCommGroup Point]
    (G : Point) (bit : Bool) (b : ℕ) (A : Point) : COReceiverXfer Point :=
  let B0 := b • G
  let B := if bit then B0 + A else B0
  let As := b • A
  { bit := bit, b := b, Bpt := B, As := As }

/-- From co.go COReceiverXfer.ReceiveE: mask = deriveMask(As, 0); return
mask xor e1 when the bit is set, mask xor e0 otherwise. -/
def COReceiverXfer.ReceiveE {Point : Type}
    (kdf : Point → ℕ → ℕ) (r : COReceiverXfer Point) (e0 e1 : ℕ) : ℕ :=
  let mask := kdf r.As 0
  if r.bit then mask ^^^ e1 else mask ^^^ e0

/-- One complete CO-OT single transfer wired exactly as in co.go: the
sender runs NewTransfer, the receiver runs ReceiveA on the genuine A, the
sender runs ReceiveB on the genuine B, and the receiver runs ReceiveE on
the genuine ciphertext pair. -/
def coSingleTransfer {Point : Type} [AddCommGroup Point]
    (G : Point) (kdf : Point → ℕ → ℕ) (a b : ℕ) (c : Bool) (m0 m1 : ℕ) : ℕ :=
  let s := COSender.NewTransfer G m0 m1 a
  let r := COReceiverXfer.ReceiveA G c b s.A
  let e := s.ReceiveB kdf r.Bpt
  r.ReceiveE kdf e.1 e.2

/-! ## CO-OT at the raw coordinate level -/

/-- Opaque record of the crypto/elliptic curve operations as used by co.go
on raw coordinate pairs (big.Int values, here naturals). -/
structure CurveOps where
  scalarBaseMult : ℕ → ℕ × ℕ
  scalarMult : ℕ × ℕ → ℕ → ℕ × ℕ
  add : ℕ × ℕ → ℕ × ℕ → ℕ × ℕ

/-- From co.go COReceiverXfer.ReceiveA, at the coordinate level: the bytes
x, y are turned into a point by SetBytes and used directly; the method has
no error return and performs no on-curve or identity check. -/
def receiveARaw (C : CurveOps) (bit : Bool) (b : ℕ) (x y : ℕ) :
    COReceiverXfer (ℕ × ℕ) :=
  let A := (x, y)
  let B0 := C.scalarBaseMult b
  let B := if bit then C.add B0 A else B0
  let As := C.scalarMult A b
  { bit := bit, b := b, Bpt := B, As := As }

/-- From co.go COSenderXfer.ReceiveB, at the coordinate level: the bytes
x, y become the point B with no validation; bB = a.B, ba = bB + AaInv, and
the ciphertext pair is returned.  The method has no error return. -/
def receiveBRaw (C : CurveOps) (kdf : ℕ × ℕ → ℕ → ℕ)
    (s : COSenderXfer (ℕ × ℕ)) (x y : ℕ) : ℕ × ℕ :=
  let B := (x, y)
  let bB := C.scalarMult B s.a
  let ba := C.add bB s.AaInv
  (kdf bB 0 ^^^ s.m0, kdf ba 0 ^^^ s.m1)

/-- The P-256 prime modulus. -/
def p256P : ℕ :=
  115792089210356248762697446949407573530086143415290314195533631308867097853951

/-- The P-256 curve coefficient b. -/
def p256B : ℕ :=
  41058363725152142129326129780047268409114441015993725554835256314039467401291

/-- Modelled from the spec: the on-curve test "a received curve point that
is not on the curve" - the Weierstrass equation y^2 = x^3 - 3x + b over the
P-256 prime field (the semantics of elliptic.Curve.IsOnCurve, which is not
called anywhere under src/). -/
def isOnCurveP256 (x y : ℕ) : Bool :=
  decide (x < p256P) && decide (y < p256P) &&
    decide ((y * y) % p256P = (x * x * x + (p256P - 3) * x + p256B) % p256P)

/-- Modelled from the spec: the rejection mandated by "Both sides MUST
reject a received curve point that is not on the curve or is the identity"
for the batched receiver path CO.Receive -> BuildCOChoices, whose body is
not under src/.  The identity is the conventional (0, 0) encoding of the
point at infinity. -/
def buildCOChoicesCheck (C : CurveOps) (bit : Bool) (b : ℕ) (x y : ℕ) :
    Option (COReceiverXfer (ℕ × ℕ)) :=
  if isOnCurveP256 x y = true ∧ ¬(x = 0 ∧ y = 0) then
    some (receiveARaw C bit b x y)
  else
    none

/-- Concrete curve-operation record used to evaluate the raw CO-OT
functions on explicit inputs; the statements using it do not depend on what
these operations compute, only on the absence of any rejection path. -/
def dummyOps : CurveOps :=
  { scalarBaseMult := fun n => (n, 0)
    scalarMult := fun p n => (n * p.1, n * p.2)
    add := fun p q => (p.1 + q.1, p.2 + q.2) }

/-! ## Ordered channel (ot.Conn copy of p2p/protocol.go) -/

/-- One send or receive operation at the connection level, identified by
its topic. -/
inductive ChanOp where
  | send : String → ChanOp
  | recv : String → ChanOp
deriving DecidableEq

/-- The addressing tag (session_id, topic, src, dst, seq) attached to every
message by DirectSend / DirectRecv. -/
structure Tag where
  sid : String
  topic : String
  src : ℕ
  dst : ℕ
  seq : ℕ
deriving DecidableEq

/-- Connection state, from the ot.Conn structure: session id, local party
id je, peer id tu, and the send / receive counters. -/
structure Conn where
  sid : String
  je : ℕ
  tu : ℕ
  nsend : ℕ
  nrecv : ℕ
deriving DecidableEq

/-- From NewConn: counters start at 0; je, tu = 1, 2 for the garbler and
2, 1 for the evaluator.  The grpc connection setup is not modelled. -/
def NewConn (isGarbler : Bool) (sid : String) : Conn :=
  { sid := sid
    je := if isGarbler then 1 else 2
    tu := if isGarbler then 2 else 1
    nsend := 0
    nrecv := 0 }

/-- From Conn.DirectSend: increment nsend, then tag the message with
(SessionId, topic, src = je, dst = tu, seq = nsend). -/
def Conn.DirectSend (c : Conn) (topic : String) : Conn × Tag :=
  let n := c.nsend + 1
  ({ c with nsend := n }, { sid := c.sid, topic := topic, src := c.je, dst := c.tu, seq := n })

/-- From Conn.DirectRecv: increment nrecv, then request the message tagged
(SessionId, topic, src = tu, dst = je, seq = nrecv). -/
def Conn.DirectRecv (c : Conn) (topic : String) : Conn × Tag :=
  let n := c.nrecv + 1
  ({ c with nrecv := n }, { sid := c.sid, topic := topic, src := c.tu, dst := c.je, seq := n })

/-- Run a sequence of sends and receives through a connection, collecting
the tag attached to each operation in order. -/
def runChanOps : Conn → List ChanOp → Conn × List Tag
  | c, [] => (c, [])
  | c, ChanOp.send tp :: rest =>
      let r := Conn.DirectSend c tp
      let rr := runChanOps r.1 rest
      (rr.1, r.2 :: rr.2)
  | c, ChanOp.recv tp :: rest =>
      let r := Conn.DirectRecv c tp
      let rr := runChanOps r.1 rest
      (rr.1, r.2 :: rr.2)

/-- The topics of the send operations of a sequence, in order. -/
def sendTopics : List ChanOp → List String
  | [] => []
  | ChanOp.send tp :: rest => tp :: sendTopics rest
  | ChanOp.recv _ :: rest => sendTopics rest

/-- The topics of the receive operations of a sequence, in order. -/
def recvTopics : List ChanOp → List String
  | [] => []
  | ChanOp.send _ :: rest => recvTopics rest
  | ChanOp.recv tp :: rest => tp :: recvTopics rest

/-- The tags belonging to the send operations, extracted from the aligned
operation and tag lists. -/
def selectSendTags : List ChanOp → List Tag → List Tag
  | ChanOp.send _ :: ops, t :: ts => t :: selectSendTags ops ts
  | ChanOp.recv _ :: ops, _ :: ts => selectSendTags ops ts
  | _, _ => []

/-- The tags belonging to the receive operations, extracted from the
aligned operation and tag lists. -/
def selectRecvTags : List ChanOp → List Tag → List Tag
  | ChanOp.send _ :: ops, _ :: ts => selectRecvTags ops ts
  | ChanOp.recv _ :: ops, t :: ts => t :: selectRecvTags ops ts
  | _, _ => []

/-- Reference tagging of a topic list: the i-th topic (1-indexed, starting
after n earlier operations of the same direction) is tagged
(sid, topic, src, dst, n + i). -/
def seqTags (sid : String) (src dst : ℕ) : ℕ → List String → List Tag
  | _, [] => []
  | n, tp :: rest =>
      { sid := sid, topic := tp, src := src, dst := dst, seq := n + 1 }
        :: seqTags sid src dst (n + 1) rest

/-! ## Drivers (garbler_fn + Garbler, evaluator_fn + Evaluator) -/

/-- The ot query value {Offset, Count} received by the garbler in step G4.
Go int fields are modelled as integers. -/
structure OtQuery where
  Offset : ℤ
  Count : ℤ
deriving DecidableEq

/-- From garbler.go steps G4 and G5: reject the query unless Offset equals
the bit width of input group 0 and Count equals the bit width of input
group 1; otherwise pass the wire slice Wires[Offset : Offset+Count] to the
OT send.  The Go slice w[o : o+c] is List.take c (List.drop o w). -/
def garblerG4G5 {α : Type} (bits0 bits1 : ℕ) (q : OtQuery) (wires : List α) :
    Except String (List α) :=
  if q.Offset ≠ (bits0 : ℤ) ∨ q.Count ≠ (bits1 : ℤ) then
    Except.error ("peer cant OT wires")
  else
    Except.ok ((wires.drop q.Offset.toNat).take q.Count.toNat)

/-- From p2p/protocol.go Conn.Exchange: a failure of the underlying
exchange is wrapped into the local err variable, but the function returns
nil unconditionally. -/
def connExchange (inner : Except String Unit) : Except String Unit :=
  match inner with
  | Except.error _ => Except.ok ()
  | Except.ok _ => Except.ok ()

/-- The garbler driver's transport skeleton: the input-size exchange of
garbler_fn followed by Garbler steps G1-G7, with the CO.Send sub-messages
inlined at step G5.  The oracle gives the success of the k-th transport
call; the trace records every transport call attempted, and the Bool is
true when the driver returns without error.  Mirroring the source, the
error of the step-G3 send of "inputs" is wrapped but not returned, so the
driver continues regardless of oracle position 4. -/
def garblerRun (ok : ℕ → Bool) (bits0 bits1 : ℕ) (q : OtQuery) :
    List ChanOp × Bool :=
  let t0 : List ChanOp := [ChanOp.send ("input sizes")]
  if ok 0 = false then (t0, false) else
  let t1 := t0 ++ [ChanOp.recv ("input sizes")]
  if ok 1 = false then (t1, false) else
  let t2 := t1 ++ [ChanOp.send ("ephemeral key")]
  if ok 2 = false then (t2, false) else
  let t3 := t2 ++ [ChanOp.send ("garbled gates")]
  if ok 3 = false then (t3, false) else
  let t4 := t3 ++ [ChanOp.send ("inputs")]
  let t5 := t4 ++ [ChanOp.recv ("ot query")]
  if ok 5 = false then (t5, false) else
  if q.Offset ≠ (bits0 : ℤ) ∨ q.Count ≠ (bits1 : ℤ) then (t5, false) else
  let t6 := t5 ++ [ChanOp.send ("setup.Ax,Ay")]
  if ok 6 = false then (t6, false) else
  let t7 := t6 ++ [ChanOp.recv ("co choices")]
  if ok 7 = false then (t7, false) else
  let t8 := t7 ++ [ChanOp.send ("ot ciphertexts")]
  if ok 8 = false then (t8, false) else
  let t9 := t8 ++ [ChanOp.recv ("result labels")]
  if ok 9 = false then (t9, false) else
  let t10 := t9 ++ [ChanOp.send ("result")]
  if ok 10 = false then (t10, false) else
  (t10, true)

/-- The evaluator driver's transport skeleton: the input-size exchange of
evaluator_fn followed by Evaluator steps E1-E7, with the CO.Receive
sub-messages inlined at step E5.  Every transport error is propagated. -/
def evaluatorRun (ok : ℕ → Bool) : List ChanOp × Bool :=
  let t0 : List ChanOp := [ChanOp.send ("input sizes")]
  if ok 0 = false then (t0, false) else
  let t1 := t0 ++ [ChanOp.recv ("input sizes")]
  if ok 1 = false then (t1, false) else
  let t2 := t1 ++ [ChanOp.recv ("ephemeral key")]
  if ok 2 = false then (t2, false) else
  let t3 := t2 ++ [ChanOp.recv ("garbled gates")]
  if ok 3 = false then (t3, false) else
  let t4 := t3 ++ [ChanOp.recv ("inputs")]
  if ok 4 = false then (t4, false) else
  let t5 := t4 ++ [ChanOp.send ("ot query")]
  if ok 5 = false then (t5, false) else
  let t6 := t5 ++ [ChanOp.recv ("setup.Ax,Ay")]
  if ok 6 = false then (t6, false) else
  let t7 := t6 ++ [ChanOp.send ("co choices")]
  if ok 7 = false then (t7, false) else
  let t8 := t7 ++ [ChanOp.recv ("ot ciphertexts")]
  if ok 8 = false then (t8, false) else
  let t9 := t8 ++ [ChanOp.send ("result labels")]
  if ok 9 = false then (t9, false) else
  let t10 := t9 ++ [ChanOp.recv ("result")]
  if ok 10 = false then (t10, false) else
  (t10, true)

/-! ## Result discriminator and the dead caching branch -/

/-- From the discriminator-inspecting epilogue of garbler_fn and
evaluator_fn (FFI variant): on val[0] != 0 return val[1:] and nil error,
otherwise return the error carrying val[1].  The out-of-range accesses the
Go code would panic on are modelled as none. -/
def resultEpilogue (val : List ℕ) : Option (Except ℕ (List ℕ)) :=
  match val with
  | [] => none
  | v0 :: rest =>
      if v0 ≠ 0 then some (Except.ok rest)
      else
        match rest with
        | [] => none
        | v1 :: _ => some (Except.error v1)

/-- Go slices.Compare on integer slices: lexicographic element comparison,
then length comparison. -/
def sliceCompareInt : List ℤ → List ℤ → ℤ
  | [], [] => 0
  | [], _ :: _ => -1
  | _ :: _, [] => 1
  | a :: as, b :: bs => if a < b then -1 else if b < a then 1 else sliceCompareInt as bs

/-- From the circuit-reload guard of evaluator_fn: circ starts nil,
oPeerInputSizes is declared empty immediately before the comparison; when
slices.Compare(peerInputSizes, oPeerInputSizes) is nonzero the circuit is
loaded (load stands for the successfully loaded circuit) and
oPeerInputSizes is assigned peerInputSizes.  The result is the pair
(circ, oPeerInputSizes) after the branch. -/
def evaluatorCircSetup {α : Type} (peer : List ℤ) (load : α) :
    Option α × List ℤ :=
  let oPeer : List ℤ := []
  if sliceCompareInt peer oPeer ≠ 0 then (some load, peer) else (none, oPeer)

/-- The same guard with the dead assignment to oPeerInputSizes removed -
the rewrite suggested by the spec's design notes. -/
def evaluatorCircSetupNoWrite {α : Type} (peer : List ℤ) (load : α) :
    Option α × List ℤ :=
  let oPeer : List ℤ := []
  if sliceCompareInt peer oPeer ≠ 0 then (some load, oPeer) else (none, oPeer)

/-- The nil-pointer dereference of circ.PrintInputs / circ.Inputs after the
guard: dereferencing nil is the Go runtime panic, modelled as an error. -/
def derefCirc {α : Type} (c : Option α) : Except String α :=
  match c with
  | none => Except.error ("nil pointer dereference")
  | some v => Except.ok v

/-! ## Theorems -/

/-- Bitwise XOR with the same mask twice recovers the message. -/
theorem xor_cancel_left (a b : ℕ) : a ^^^ (a ^^^ b) = b := by
  rw [← Nat.xor_assoc, Nat.xor_self, Nat.zero_xor]

/-- Claim C1: CO-OT single-transfer round-trip.  For every message pair
(m0, m1), every selection bit c and all scalars a, b, composing
COSender.NewTransfer, COReceiverXfer.ReceiveA, COSenderXfer.ReceiveB and
COReceiverXfer.ReceiveE on the genuine exchanged points returns exactly
the selected message, with the key-derivation function uninterpreted. -/
theorem co_ot_single_transfer_round_trip {Point : Type} [AddCommGroup Point]
    (G : Point) (kdf : Point → ℕ → ℕ) (a b : ℕ) (c : Bool) (m0 m1 : ℕ) :
    coSingleTransfer G kdf a b c m0 m1 = if c then m1 else m0 := by
  cases c with
  | false =>
      simp only [coSingleTransfer, COSender.NewTransfer, COReceiverXfer.ReceiveA,
        COSenderXfer.ReceiveB, COReceiverXfer.ReceiveE, if_false, Bool.false_eq_true,
        if_neg, smul_smul]
      rw [Nat.mul_comm a b]
      exact xor_cancel_left _ _
  | true =>
      simp only [coSingleTransfer, COSender.NewTransfer, COReceiverXfer.ReceiveA,
        COSenderXfer.ReceiveB, COReceiverXfer.ReceiveE, if_true, smul_add,
        add_neg_cancel_right, smul_smul]
      rw [Nat.mul_comm a b]
      exact xor_cancel_left _ _

/-- Claim C7: receiver noninterference in CO-OT.  The value returned by
COReceiverXfer.ReceiveE does not depend on the unselected ciphertext: for
bit = 0 it is unchanged under any change of e1, and for bit = 1 under any
change of e0. -/
theorem co_receiveE_ignores_unselected {Point : Type}
    (kdf : Point → ℕ → ℕ) (b : ℕ) (Bp As : Point) (e0 e1 e0' e1' : ℕ) :
    (COReceiverXfer.ReceiveE kdf { bit := false, b := b, Bpt := Bp, As := As } e0 e1
      = COReceiverXfer.ReceiveE kdf { bit := false, b := b, Bpt := Bp, As := As } e0 e1') ∧
    (COReceiverXfer.ReceiveE kdf { bit := true, b := b, Bpt := Bp, As := As } e0 e1
      = COReceiverXfer.ReceiveE kdf { bit := true, b := b, Bpt := Bp, As := As } e0' e1) := by
  constructor <;> simp [COReceiverXfer.ReceiveE]

/-- Claim C3 counterexample: the point (0, 1) is not on the P-256 curve,
yet COReceiverXfer.ReceiveA processes it and returns a fully computed
state, and COSenderXfer.ReceiveB processes it and returns a ciphertext
pair - neither method has an error outcome, so no rejection occurs. -/
theorem co_receiveA_accepts_offcurve_point :
    isOnCurveP256 0 1 = false ∧
    receiveARaw dummyOps false 1 0 1
      = { bit := false, b := 1, Bpt := (1, 0), As := (0, 1) } ∧
    receiveBRaw dummyOps (fun p _ => p.1 + p.2)
      { m0 := 5, m1 := 7, a := 1, A := (9, 9), AaInv := (0, 0) } 0 1 = (4, 6) := by
  refine ⟨by decide, rfl, rfl⟩

/-- Claim C3 (amended): the single-transfer methods COReceiverXfer.ReceiveA
and COSenderXfer.ReceiveB themselves perform no curve-point validation and
cannot return an error; the spec-mandated rejection lives on the batched
path CO.Receive -> BuildCOChoices (not under src/), modelled here: the
checked receiver setup returns none exactly when the incoming point is off
the curve or is the identity. -/
theorem co_batched_receive_rejects_invalid_point (C : CurveOps)
    (bit : Bool) (b x y : ℕ) :
    buildCOChoicesCheck C bit b x y = none ↔
      (isOnCurveP256 x y = false ∨ (x = 0 ∧ y = 0)) := by
  by_cases h : isOnCurveP256 x y = true ∧ ¬(x = 0 ∧ y = 0)
  · simp only [buildCOChoicesCheck, if_pos h]
    constructor
    · intro hc
      exact absurd hc (by simp)
    · intro hc
      rcases hc with hc | hc
      · rw [h.1] at hc
        exact absurd hc (by simp)
      · exact absurd hc h.2
  · simp only [buildCOChoicesCheck, if_neg h]
    constructor
    · intro _
      rcases Decidable.not_and_iff_or_not.mp h with h1 | h2
      · exact Or.inl (by simpa using h1)
      · exact Or.inr (Decidable.not_not.mp h2)
    · intro _
      trivial

/-- Claim C4: the garbler errors on the received ot query exactly when the
offset differs from the width of input group 0 or the count differs from
the width of input group 1; on the matching query it passes exactly the
wire slice Wires[Offset : Offset+Count] to the OT send. -/
theorem garbler_ot_query_validation {α : Type} (bits0 bits1 : ℕ)
    (q : OtQuery) (wires : List α) :
    ((∃ e, garblerG4G5 bits0 bits1 q wires = Except.error e) ↔
      (q.Offset ≠ (bits0 : ℤ) ∨ q.Count ≠ (bits1 : ℤ))) ∧
    garblerG4G5 bits0 bits1 { Offset := bits0, Count := bits1 } wires
      = Except.ok ((wires.drop bits0).take bits1) := by
  constructor
  · constructor
    · intro he
      by_contra hc
      rw [garblerG4G5, if_neg hc] at he
      rcases he with ⟨e, he⟩
      exact Except.noConfusion he
    · intro hc
      exact ⟨"peer cant OT wires", by rw [garblerG4G5, if_pos hc]⟩
  · rw [garblerG4G5, if_neg (by simp)]
    simp [Int.toNat_natCast]

/-- Claim C8: result discriminator handling in the driver entry points
garbler_fn / evaluator_fn (discriminator-inspecting variant): a buffer with
leading byte 0x01 yields the remaining payload and no error; a buffer with
leading byte 0x00 yields an error carrying the one-byte code val[1] and no
payload. -/
theorem result_discriminator_handling (rest : List ℕ) (v1 : ℕ) (r2 : List ℕ) :
    resultEpilogue (1 :: rest) = some (Except.ok rest) ∧
    resultEpilogue (0 :: v1 :: r2) = some (Except.error v1) := by
  constructor <;> rfl

/-- Claim C9: the slice oPeerInputSizes compared against in the
circuit-reload guard of evaluator_fn is always empty, so the load branch
runs exactly when the received peerInputSizes is non-empty, and removing
the dead assignment to oPeerInputSizes inside the branch does not change
the circ value every later line reads. -/
theorem evaluator_dead_cache_branch {α : Type} (peer : List ℤ) (load : α) :
    (sliceCompareInt peer [] ≠ 0 ↔ peer ≠ []) ∧
    (evaluatorCircSetup peer load).1 = (if peer = [] then none else some load) ∧
    (evaluatorCircSetup peer load).1 = (evaluatorCircSetupNoWrite peer load).1 := by
  cases peer with
  | nil => simp [sliceCompareInt, evaluatorCircSetup, evaluatorCircSetupNoWrite]
  | cons a as =>
      simp [sliceCompareInt, evaluatorCircSetup, evaluatorCircSetupNoWrite]

/-- Claim C10: implicit safety precondition of evaluator_fn - after the
reload guard, the dereference of circ fails with a nil-pointer error
exactly when the peer announced an empty input-size list; for every
non-empty announcement (with the load succeeding) the dereference yields
the loaded circuit. -/
theorem evaluator_nil_circ_precondition {α : Type} (peer : List ℤ) (load : α) :
    ((∃ e, derefCirc (evaluatorCircSetup peer load).1 = Except.error e) ↔ peer = []) ∧
    derefCirc (evaluatorCircSetup peer load).1
      = (if peer = [] then Except.error ("nil pointer dereference") else Except.ok load) := by
  cases peer with
  | nil =>
      exact ⟨⟨fun _ => rfl, fun _ => ⟨"nil pointer dereference", rfl⟩⟩, rfl⟩
  | cons a as =>
      refine ⟨?_, ?_⟩
      · constructor
        · intro ⟨e, he⟩
          rw [show (evaluatorCircSetup (a :: as) load).1 = some load from by
                simp [evaluatorCircSetup, sliceCompareInt]] at he
          exact Except.noConfusion he
        · intro hc
          exact List.noConfusion hc
      · rw [show (evaluatorCircSetup (a :: as) load).1 = some load from by
              simp [evaluatorCircSetup, sliceCompareInt]]
        simp [derefCirc]

/-- Claim C2: error propagation fails in the code.  With a transport
oracle that fails exactly the step-G3 send of "inputs" (call index 4) and
succeeds everywhere else, the garbler driver runs to completion and
reports success - the wrapped error is never returned; and Conn.Exchange
returns nil even when the underlying exchange fails. -/
theorem garbler_swallows_g3_and_exchange_errors :
    (garblerRun (fun k => k != 4) 3 2 { Offset := 3, Count := 2 }).2 = true ∧
    (garblerRun (fun k => k != 4) 3 2 { Offset := 3, Count := 2 }).1 =
      [ChanOp.send ("input sizes"), ChanOp.recv ("input sizes"),
       ChanOp.send ("ephemeral key"), ChanOp.send ("garbled gates"),
       ChanOp.send ("inputs"), ChanOp.recv ("ot query"),
       ChanOp.send ("setup.Ax,Ay"), ChanOp.recv ("co choices"),
       ChanOp.send ("ot ciphertexts"), ChanOp.recv ("result labels"),
       ChanOp.send ("result")] ∧
    connExchange (Except.error ("relay timeout")) = Except.ok () := by
  refine ⟨by decide, by decide, rfl⟩

/-- Claim C6: over a complete error-free run, the garbler's send topics
(in order, including the input-size exchange and the CO-OT sub-messages)
equal the evaluator's receive topics, and vice versa; hence the n-th send
of one party carries the same topic as the peer's n-th receive, for every
pair of announced widths. -/
theorem driver_topic_matching (b0 b1 : ℕ) :
    sendTopics (garblerRun (fun _ => true) b0 b1
        { Offset := (b0 : ℤ), Count := (b1 : ℤ) }).1
      = recvTopics (evaluatorRun (fun _ => true)).1 ∧
    recvTopics (garblerRun (fun _ => true) b0 b1
        { Offset := (b0 : ℤ), Count := (b1 : ℤ) }).1
      = sendTopics (evaluatorRun (fun _ => true)).1 := by
  constructor <;>
    simp [garblerRun, evaluatorRun, sendTopics, recvTopics]

/-- The send counter after a run is the starting counter plus the number
of sends; receives leave it unchanged. -/
theorem runChanOps_nsend (c : Conn) (ops : List ChanOp) :
    (runChanOps c ops).1.nsend = c.nsend + (sendTopics ops).length := by
  induction ops generalizing c with
  | nil => rfl
  | cons op rest ih =>
      cases op with
      | send tp =>
          calc (runChanOps c (ChanOp.send tp :: rest)).1.nsend
              = (c.nsend + 1) + (sendTopics rest).length := ih (Conn.DirectSend c tp).1
            _ = c.nsend + (sendTopics (ChanOp.send tp :: rest)).length := by
                simp only [sendTopics, List.length_cons]
                omega
      | recv tp => exact ih (Conn.DirectRecv c tp).1

/-- The receive counter after a run is the starting counter plus the
number of receives; sends leave it unchanged. -/
theorem runChanOps_nrecv (c : Conn) (ops : List ChanOp) :
    (runChanOps c ops).1.nrecv = c.nrecv + (recvTopics ops).length := by
  induction ops generalizing c with
  | nil => rfl
  | cons op rest ih =>
      cases op with
      | send tp => exact ih (Conn.DirectSend c tp).1
      | recv tp =>
          calc (runChanOps c (ChanOp.recv tp :: rest)).1.nrecv
              = (c.nrecv + 1) + (recvTopics rest).length := ih (Conn.DirectRecv c tp).1
            _ = c.nrecv + (recvTopics (ChanOp.recv tp :: rest)).length := by
                simp only [recvTopics, List.length_cons]
                omega

/-- The tags of the send operations of a run are the send topics numbered
consecutively from the starting send counter, tagged src = je, dst = tu,
independently of any interleaved receives. -/
theorem runChanOps_sendTags (c : Conn) (ops : List ChanOp) :
    selectSendTags ops (runChanOps c ops).2
      = seqTags c.sid c.je c.tu c.nsend (sendTopics ops) := by
  induction ops generalizing c with
  | nil => rfl
  | cons op rest ih =>
      cases op with
      | send tp =>
          exact congrArg (fun l => (Conn.DirectSend c tp).2 :: l)
            (ih (Conn.DirectSend c tp).1)
      | recv tp => exact ih (Conn.DirectRecv c tp).1

/-- The tags of the receive operations of a run are the receive topics
numbered consecutively from the starting receive counter, tagged src = tu,
dst = je, independently of any interleaved sends. -/
theorem runChanOps_recvTags (c : Conn) (ops : List ChanOp) :
    selectRecvTags ops (runChanOps c ops).2
      = seqTags c.sid c.tu c.je c.nrecv (recvTopics ops) := by
  induction ops generalizing c with
  | nil => rfl
  | cons op rest ih =>
      cases op with
      | send tp => exact ih (Conn.DirectSend c tp).1
      | recv tp =>
          exact congrArg (fun l => (Conn.DirectRecv c tp).2 :: l)
            (ih (Conn.DirectRecv c tp).1)

/-- Claim C5: connection counter invariant.  NewConn gives je = 1, tu = 2
for the garbler and je = 2, tu = 1 otherwise, with both counters 0; after
any interleaving of sends and receives, nsend counts the sends and nrecv
the receives, the i-th send was tagged (session_id, topic_i, je, tu, i)
and the i-th receive requested (session_id, topic_i, tu, je, i). -/
theorem conn_counter_invariant (g : Bool) (sid : String) (ops : List ChanOp) :
    ((NewConn g sid).nsend = 0 ∧ (NewConn g sid).nrecv = 0) ∧
    ((NewConn g sid).je = if g then 1 else 2) ∧
    ((NewConn g sid).tu = if g then 2 else 1) ∧
    (runChanOps (NewConn g sid) ops).1.nsend = (sendTopics ops).length ∧
    (runChanOps (NewConn g sid) ops).1.nrecv = (recvTopics ops).length ∧
    selectSendTags ops (runChanOps (NewConn g sid) ops).2
      = seqTags sid (if g then 1 else 2) (if g then 2 else 1) 0 (sendTopics ops) ∧
    selectRecvTags ops (runChanOps (NewConn g sid) ops).2
      = seqTags sid (if g then 2 else 1) (if g then 1 else 2) 0 (recvTopics ops) := by
  refine ⟨⟨rfl, rfl⟩, rfl, rfl, ?_, ?_, ?_, ?_⟩
  · simpa [NewConn] using runChanOps_nsend (NewConn g sid) ops
  · simpa [NewConn] using runChanOps_nrecv (NewConn g sid) ops
  · simpa [NewConn] using runChanOps_sendTags (NewConn g sid) ops
  · simpa [NewConn] using runChanOps_recvTags (NewConn g sid) ops
